import Mathlib

/-!
Shallow embedding of the spike-simulator repository: the synaptic
conductance `g_syn`, the synaptic currents `I_AMPA` and `I_GABA`, the
explicit-Euler membrane integration loops of the two notebooks, and the
reversal-potential calculators `nernst_ind` and `ghk`.  Python floats are
modelled as real numbers.  A Python exception raised by a function
(a division by zero, or the failed assert in `ghk`) is modelled by an
`Option` result with `none` standing for the raised error; `np.log` never
raises and is modelled by the total function `Real.log`.
-/

namespace SpikeSim

open Real List

/-- Source constant `e = 2.71828` used by `g_syn`: the notebook's decimal
approximation of Euler's number, not `Real.exp 1`. -/
def econst : ℝ := 2.71828

/-- Source `heaviside(x)`: the truth value of `x >= 0`. -/
def heaviside (x : ℝ) : Prop := x ≥ 0

noncomputable instance : DecidablePred heaviside :=
  fun x => inferInstanceAs (Decidable (x ≥ 0))

/-- Source `g_syn(t, spks, g_max, tau)` (the spec's `conductance_at`): a
for-loop over the spike list accumulating
`g_max * e**(-(t-spks[i])/tau) * float(heaviside(t-spks[i]))`. -/
noncomputable def g_syn (t : ℝ) (spks : List ℝ) (g_max tau : ℝ) : ℝ :=
  spks.foldl
    (fun total s =>
      total + g_max * econst ^ (-(t - s) / tau) *
        (if heaviside (t - s) then (1 : ℝ) else 0)) 0

/-- Source `I_AMPA(t, V_t, spks, g_max, tau, E)`; the loop uses the default
parameters `g_max=50`, `tau=4`, `E=0`. -/
noncomputable def I_AMPA (t V_t : ℝ) (spks : List ℝ) (g_max tau E : ℝ) : ℝ :=
  1e-3 * g_syn t spks g_max tau * (V_t - E)

/-- Source `I_GABA(t, V_t, spks, g_max, tau, E)`; the loop uses the default
parameters `g_max=50`, `tau=8`, `E=-70`. -/
noncomputable def I_GABA (t V_t : ℝ) (spks : List ℝ) (g_max tau E : ℝ) : ℝ :=
  1e-3 * g_syn t spks g_max tau * (V_t - E)

/-- One iteration of the membrane simulation loop of the synapse notebook:
`t = i*dt`, then `I_leak = (V_t - V_rest)/R_m`, then
`I_syn = I_GABA(t, V_t, inh_spks) + I_AMPA(t, V_t, exc_spks)` (both at the
pre-step voltage, with the default synapse parameters), then
`dV = (-I_leak - I_syn + I_e/A) * dt/C_m`, then `V_t = V_t + dV`. -/
noncomputable def simStep (V_rest R_m C_m I_e A dt : ℝ)
    (inh_spks exc_spks : List ℝ) (i : ℕ) (V_t : ℝ) : ℝ :=
  let t := (i : ℝ) * dt
  let I_leak := (V_t - V_rest) / R_m
  let I_syn := I_GABA t V_t inh_spks 50 8 (-70) + I_AMPA t V_t exc_spks 50 4 0
  let dV := (-I_leak - I_syn + I_e / A) * dt / C_m
  V_t + dV

/-- Membrane voltage after `n` iterations of the simulation loop of the
synapse notebook, starting from `V0`. -/
noncomputable def simulate (V_rest R_m C_m I_e A dt : ℝ)
    (inh_spks exc_spks : List ℝ) (V0 : ℝ) : ℕ → ℝ
  | 0 => V0
  | i + 1 => simStep V_rest R_m C_m I_e A dt inh_spks exc_spks i
      (simulate V_rest R_m C_m I_e A dt inh_spks exc_spks V0 i)

/-- One iteration of the leak-only convergence loop of the neuron notebook:
`I_leak = (V_t - V_rest)/R_m; dV = (-I_leak + I_e) * dt/C_m; V_t = V_t + dV`. -/
noncomputable def leakStep (V_rest R_m C_m I_e dt V_t : ℝ) : ℝ :=
  V_t + (-((V_t - V_rest) / R_m) + I_e) * dt / C_m

/-- Membrane voltage after `n` iterations of the leak-only loop of the
neuron notebook, starting from `V0`. -/
noncomputable def leakSim (V_rest R_m C_m I_e dt V0 : ℝ) : ℕ → ℝ
  | 0 => V0
  | n + 1 => leakStep V_rest R_m C_m I_e dt (leakSim V_rest R_m C_m I_e dt V0 n)

/-- Source constant `R = 8.314` (gas constant). -/
def R : ℝ := 8.314

/-- Source constant `F = 96485` (Faraday constant). -/
def F : ℝ := 96485

/-- Source constant `T = 310.25` (temperature). -/
def T : ℝ := 310.25

/-- Source constant `RTF = R*T/F`. -/
noncomputable def RTF : ℝ := R * T / F

/-- Source `nernst_ind(C_out, C_in, sign) = RTF/sign * np.log(C_out/C_in) * 1000`.
`none` models a raised `ZeroDivisionError`: Python raises when `sign = 0`
(in `RTF/sign`) or when `C_in = 0` (in `C_out/C_in`).  `np.log` does not
raise on non-positive input (it yields `nan` or `-inf`), modelled by the
total `Real.log`. -/
noncomputable def nernst_ind (C_out C_in sign : ℝ) : Option ℝ :=
  if sign = 0 ∨ C_in = 0 then none
  else some (RTF / sign * Real.log (C_out / C_in) * 1000)

/-- Python `zip` over the four argument sequences of `ghk`: truncates to
the shortest list. -/
def zip4 : List ℝ → List ℝ → List ℝ → List ℤ → List (ℝ × ℝ × ℝ × ℤ)
  | [], _, _, _ => []
  | _ :: _, [], _, _ => []
  | _ :: _, _ :: _, [], _ => []
  | _ :: _, _ :: _, _ :: _, [] => []
  | a :: l₁, b :: l₂, c :: l₃, d :: l₄ => (a, b, c, d) :: zip4 l₁ l₂ l₃ l₄

/-- The accumulation loop of `ghk` over the zipped quadruples
`(cin, cout, p, z)`.  The source's `assert abs(z) == 1` (the spec's
`UnsupportedValenceError`) is modelled by returning `none`. -/
noncomputable def ghkLoop : List (ℝ × ℝ × ℝ × ℤ) → ℝ → ℝ → Option (ℝ × ℝ)
  | [], dividend, divisor => some (dividend, divisor)
  | (cin, cout, p, z) :: rest, dividend, divisor =>
    if z.natAbs = 1 then
      if 0 < z then ghkLoop rest (dividend + p * cout) (divisor + p * cin)
      else ghkLoop rest (dividend + p * cin) (divisor + p * cout)
    else none

/-- Source `ghk(C_outs, C_ins, ps, zs)`: runs the accumulation loop over
`zip(C_ins, C_outs, ps, zs)` starting from `dividend = divisor = 0` and
returns `RTF * np.log(dividend/divisor) * 1000`.  A `none` result models a
raised exception: the failed valence assert inside the loop, or the
`ZeroDivisionError` of `dividend/divisor` when the accumulated divisor is
zero. -/
noncomputable def ghk (C_outs C_ins ps : List ℝ) (zs : List ℤ) : Option ℝ :=
  (ghkLoop (zip4 C_ins C_outs ps zs) 0 0).bind fun dv =>
    if dv.2 = 0 then none else some (RTF * Real.log (dv.1 / dv.2) * 1000)

/-- The GHK numerator as the spec describes it, over zipped quadruples
`(cin, cout, p, z)`: a positive-valence ion contributes `p * cout`, a
negative-valence ion contributes `p * cin`. -/
noncomputable def ghkNumerator (l : List (ℝ × ℝ × ℝ × ℤ)) : ℝ :=
  (l.map (fun q => if 0 < q.2.2.2 then q.2.2.1 * q.2.1 else q.2.2.1 * q.1)).sum

/-- The GHK denominator as the spec describes it: a positive-valence ion
contributes `p * cin`, a negative-valence ion contributes `p * cout`. -/
noncomputable def ghkDenominator (l : List (ℝ × ℝ × ℝ × ℤ)) : ℝ :=
  (l.map (fun q => if 0 < q.2.2.2 then q.2.2.1 * q.1 else q.2.2.1 * q.2.1)).sum

/-! ### Helper lemmas about the conductance sum -/

lemma g_syn_foldl (t g_max tau : ℝ) :
    ∀ (l : List ℝ) (a : ℝ),
      l.foldl
        (fun total s =>
          total + g_max * econst ^ (-(t - s) / tau) *
            (if heaviside (t - s) then (1 : ℝ) else 0)) a =
      a + (l.map (fun s =>
        if t - s ≥ 0 then g_max * econst ^ (-(t - s) / tau) else 0)).sum
  | [], a => by simp
  | s :: l, a => by
    rw [List.foldl_cons, List.map_cons, List.sum_cons, g_syn_foldl t g_max tau l]
    simp only [heaviside]
    split_ifs with hs
    · ring
    · ring

/-- The source loop of `g_syn` written as a sum over the spike list:
spikes with `t - s ≥ 0` contribute `g_max * econst ^ (-(t-s)/tau)`, future
spikes contribute `0`. -/
lemma g_syn_eq_sum (t : ℝ) (spks : List ℝ) (g_max tau : ℝ) :
    g_syn t spks g_max tau =
      (spks.map (fun s =>
        if t - s ≥ 0 then g_max * econst ^ (-(t - s) / tau) else 0)).sum := by
  rw [g_syn, g_syn_foldl, zero_add]

/-! ### Helper lemmas about the ghk loop and zip -/

lemma zip4_nil₂ (a c : List ℝ) (d : List ℤ) : zip4 a [] c d = [] := by
  cases a <;> rfl

lemma zip4_nil₃ (a b : List ℝ) (d : List ℤ) : zip4 a b [] d = [] := by
  cases a <;> cases b <;> rfl

lemma zip4_nil₄ (a b c : List ℝ) : zip4 a b c [] = [] := by
  cases a <;> cases b <;> cases c <;> rfl

lemma zip4_take : ∀ (n : ℕ) (a b c : List ℝ) (d : List ℤ),
    min (min a.length b.length) (min c.length d.length) ≤ n →
    zip4 (a.take n) (b.take n) (c.take n) (d.take n) = zip4 a b c d
  | _, [], _, _, _, _ => by simp [zip4]
  | _, _ :: _, [], _, _, _ => by simp [zip4_nil₂]
  | _, _ :: _, _ :: _, [], _, _ => by simp [zip4_nil₃]
  | _, _ :: _, _ :: _, _ :: _, [], _ => by simp [zip4_nil₄]
  | 0, x :: a, y :: b, z :: c, w :: d, h => by
    simp only [List.length_cons] at h
    omega
  | n + 1, x :: a, y :: b, z :: c, w :: d, h => by
    simp only [List.take_succ_cons, zip4]
    rw [zip4_take n a b c d (by simp only [List.length_cons] at h; omega)]

lemma zip4_mem : ∀ (a b c : List ℝ) (d : List ℤ) (q : ℝ × ℝ × ℝ × ℤ),
    q ∈ zip4 a b c d → q.2.2.2 ∈ d
  | [], _, _, _, _, h => by simp [zip4] at h
  | _ :: _, [], _, _, _, h => by rw [zip4_nil₂] at h; exact absurd h (List.not_mem_nil _)
  | _ :: _, _ :: _, [], _, _, h => by rw [zip4_nil₃] at h; exact absurd h (List.not_mem_nil _)
  | _ :: _, _ :: _, _ :: _, [], _, h => by rw [zip4_nil₄] at h; exact absurd h (List.not_mem_nil _)
  | x :: a, y :: b, z :: c, w :: d, q, h => by
    rw [zip4, List.mem_cons] at h
    rcases h with h | h
    · subst h; exact List.mem_cons_self _ _
    · exact List.mem_cons_of_mem _ (zip4_mem a b c d q h)

lemma ghkLoop_ok (l : List (ℝ × ℝ × ℝ × ℤ)) (hz : ∀ q ∈ l, (q.2.2.2 : ℤ).natAbs = 1) :
    ∀ d v : ℝ, ghkLoop l d v = some (d + ghkNumerator l, v + ghkDenominator l) := by
  induction l with
  | nil => intro d v; simp [ghkLoop, ghkNumerator, ghkDenominator]
  | cons q l ih =>
    obtain ⟨cin, cout, p, z⟩ := q
    have hq : z.natAbs = 1 := hz _ (List.mem_cons_self _ _)
    have hl : ∀ q ∈ l, (q.2.2.2 : ℤ).natAbs = 1 :=
      fun q hqq => hz q (List.mem_cons_of_mem _ hqq)
    intro d v
    by_cases hpos : 0 < z
    · rw [ghkLoop, if_pos hq, if_pos hpos, ih hl]
      simp only [Option.some.injEq, Prod.mk.injEq, ghkNumerator, ghkDenominator,
        List.map_cons, List.sum_cons, if_pos hpos]
      constructor <;> ring
    · rw [ghkLoop, if_pos hq, if_neg hpos, ih hl]
      simp only [Option.some.injEq, Prod.mk.injEq, ghkNumerator, ghkDenominator,
        List.map_cons, List.sum_cons, if_neg hpos]
      constructor <;> ring

lemma ghkLoop_none (l : List (ℝ × ℝ × ℝ × ℤ))
    (h : ∃ q ∈ l, (q.2.2.2 : ℤ).natAbs ≠ 1) : ∀ d v : ℝ, ghkLoop l d v = none := by
  induction l with
  | nil => simp at h
  | cons q l ih =>
    obtain ⟨cin, cout, p, z⟩ := q
    intro d v
    rw [ghkLoop]
    by_cases hq : z.natAbs = 1
    · have htail : ∃ q ∈ l, (q.2.2.2 : ℤ).natAbs ≠ 1 := by
        rcases h with ⟨q, hmem, hne⟩
        rcases List.mem_cons.mp hmem with rfl | hmem'
        · exact absurd hq hne
        · exact ⟨q, hmem', hne⟩
      rw [if_pos hq]
      by_cases hpos : 0 < z
      · rw [if_pos hpos]; exact ih htail _ _
      · rw [if_neg hpos]; exact ih htail _ _
    · rw [if_neg hq]

/-! ### Closed form of the leak-only loop -/

lemma leakSim_closed : ∀ n : ℕ,
    leakSim (-65) 100 1 0 0.5 (-65 + 2) n = -65 + 2 * ((199 : ℝ) / 200) ^ n
  | 0 => by norm_num [leakSim]
  | n + 1 => by
    rw [leakSim, leakStep, leakSim_closed n]
    ring

/-! ### Rational bounds on the logarithms appearing in the notebooks -/

lemma exp_quarter (c : ℝ) : Real.exp c = Real.exp (c / 4) ^ 4 := by
  rw [← Real.exp_nat_mul]
  congr 1
  push_cast
  ring

lemma exp_L4_lt : Real.exp (2.6083 : ℝ) < 801 / 59 := by
  have hb : Real.exp (2.6083 / 4 : ℝ) ≤ 191951971 / 100000000 := by
    have h := Real.exp_bound' (x := 2.6083 / 4) (n := 13) (by norm_num) (by norm_num)
      (by norm_num)
    refine h.trans ?_
    simp only [Finset.sum_range_succ, Finset.sum_range_zero]
    norm_num [Nat.factorial]
  calc Real.exp (2.6083 : ℝ) = Real.exp (2.6083 / 4 : ℝ) ^ 4 := exp_quarter _
    _ ≤ (191951971 / 100000000 : ℝ) ^ 4 := pow_le_pow_left₀ (Real.exp_nonneg _) hb 4
    _ < 801 / 59 := by norm_num

lemma lt_exp_U4 : (801 / 59 : ℝ) < Real.exp (2.6084 : ℝ) := by
  have hb : (191956769 / 100000000 : ℝ) ≤ Real.exp (2.6084 / 4 : ℝ) := by
    have h := Real.sum_le_exp_of_nonneg (x := 2.6084 / 4) (by norm_num) 13
    refine le_trans ?_ h
    simp only [Finset.sum_range_succ, Finset.sum_range_zero]
    norm_num [Nat.factorial]
  calc (801 / 59 : ℝ) < (191956769 / 100000000 : ℝ) ^ 4 := by norm_num
    _ ≤ Real.exp (2.6084 / 4 : ℝ) ^ 4 := pow_le_pow_left₀ (by norm_num) hb 4
    _ = Real.exp (2.6084 : ℝ) := (exp_quarter _).symm

lemma log_ratio_gt : (2.6083 : ℝ) < Real.log (801 / 59) := by
  rw [Real.lt_log_iff_exp_lt (by norm_num)]
  exact exp_L4_lt

lemma log_ratio_lt : Real.log ((801 : ℝ) / 59) < 2.6084 := by
  rw [Real.log_lt_iff_lt_exp (by norm_num)]
  exact lt_exp_U4

lemma exp_L5_lt : Real.exp (3.2955 : ℝ) < 27 := by
  have hb : Real.exp (3.2955 / 4 : ℝ) ≤ 22793151 / 10000000 := by
    have h := Real.exp_bound' (x := 3.2955 / 4) (n := 13) (by norm_num) (by norm_num)
      (by norm_num)
    refine h.trans ?_
    simp only [Finset.sum_range_succ, Finset.sum_range_zero]
    norm_num [Nat.factorial]
  calc Real.exp (3.2955 : ℝ) = Real.exp (3.2955 / 4 : ℝ) ^ 4 := exp_quarter _
    _ ≤ (22793151 / 10000000 : ℝ) ^ 4 := pow_le_pow_left₀ (Real.exp_nonneg _) hb 4
    _ < 27 := by norm_num

lemma lt_exp_U5 : (27 : ℝ) < Real.exp (3.2961 : ℝ) := by
  have hb : (227965701 / 100000000 : ℝ) ≤ Real.exp (3.2961 / 4 : ℝ) := by
    have h := Real.sum_le_exp_of_nonneg (x := 3.2961 / 4) (by norm_num) 13
    refine le_trans ?_ h
    simp only [Finset.sum_range_succ, Finset.sum_range_zero]
    norm_num [Nat.factorial]
  calc (27 : ℝ) < (227965701 / 100000000 : ℝ) ^ 4 := by norm_num
    _ ≤ Real.exp (3.2961 / 4 : ℝ) ^ 4 := pow_le_pow_left₀ (by norm_num) hb 4
    _ = Real.exp (3.2961 : ℝ) := (exp_quarter _).symm

lemma log_27_gt : (3.2955 : ℝ) < Real.log 27 := by
  rw [Real.lt_log_iff_exp_lt (by norm_num)]
  exact exp_L5_lt

lemma log_27_lt : Real.log (27 : ℝ) < 3.2961 := by
  rw [Real.log_lt_iff_lt_exp (by norm_num)]
  exact lt_exp_U5

/-! ### Claim C1 -/

/-- Claim C1: every integration step of the membrane simulation loop
evaluates at the recomputed time `t = i*dt` and performs the update
`V <- V + dV` with `dV = (-(V - V_rest)/R_m - I_syn(t, V) + I_e/A) * dt/C_m`,
where the leak current and every synaptic current are evaluated at the
pre-step voltage `V` (explicit Euler). -/
theorem claim_C1_euler_update (V_rest R_m C_m I_e A dt : ℝ)
    (inh_spks exc_spks : List ℝ) (V0 : ℝ) (i : ℕ) :
    simulate V_rest R_m C_m I_e A dt inh_spks exc_spks V0 (i + 1) =
      simulate V_rest R_m C_m I_e A dt inh_spks exc_spks V0 i +
        (-((simulate V_rest R_m C_m I_e A dt inh_spks exc_spks V0 i - V_rest) / R_m) -
          (I_GABA ((i : ℝ) * dt)
              (simulate V_rest R_m C_m I_e A dt inh_spks exc_spks V0 i) inh_spks 50 8 (-70) +
            I_AMPA ((i : ℝ) * dt)
              (simulate V_rest R_m C_m I_e A dt inh_spks exc_spks V0 i) exc_spks 50 4 0) +
          I_e / A) * dt / C_m := rfl

/-! ### Claim C2 -/

/-- Claim C2 counterexample: at `t = 1`, a single spike at `0`, `g_max = 1`
and `tau = 1`, the source conductance is `2.71828⁻¹`, which differs from
the natural-exponential value `Real.exp (-(1-0)/1)` asserted by the claim,
because the code uses the decimal constant `e = 2.71828`. -/
theorem claim_C2_counterexample :
    g_syn 1 [0] 1 1 ≠ Real.exp (-((1 : ℝ) - 0) / 1) := by
  have h1 : g_syn 1 [0] 1 1 = econst⁻¹ := by
    rw [g_syn_eq_sum]
    simp only [List.map_cons, List.map_nil, List.sum_cons, List.sum_nil]
    rw [if_pos (by norm_num : (1 : ℝ) - 0 ≥ 0)]
    rw [show (-((1 : ℝ) - 0) / 1) = ((-1 : ℤ) : ℝ) by norm_num]
    rw [Real.rpow_intCast]
    norm_num
  have h2 : Real.exp (-((1 : ℝ) - 0) / 1) = (Real.exp 1)⁻¹ := by
    rw [show (-((1 : ℝ) - 0) / 1) = -1 by norm_num, Real.exp_neg]
  rw [h1, h2]
  intro hc
  have heq : econst = Real.exp 1 := inv_injective hc
  have hlt : econst < Real.exp 1 :=
    lt_trans (show econst < 2.7182818283 by norm_num [econst]) Real.exp_one_gt_d9
  exact absurd heq (ne_of_lt hlt)

/-- Claim C2 (amended): for every `t`, spike list, `g_max` and `tau > 0`,
the conductance equals the sum, over exactly those spike times `s` with
`t - s ≥ 0`, of `g_max * c ^ (-(t-s)/tau)` where `c = 2.71828` is the
code's decimal approximation of `e` (not the natural exponential); future
spikes contribute zero, and the empty spike list gives zero. -/
theorem claim_C2_conductance_sum (t : ℝ) (spks : List ℝ) (g_max tau : ℝ)
    (h : 0 < tau) :
    g_syn t spks g_max tau =
      (spks.map (fun s =>
        if t - s ≥ 0 then g_max * econst ^ (-(t - s) / tau) else 0)).sum ∧
    g_syn t [] g_max tau = 0 :=
  ⟨g_syn_eq_sum t spks g_max tau, by rw [g_syn_eq_sum]; simp⟩

theorem claim_C2_witness :
    (0 : ℝ) < 1 ∧
      (g_syn 1 [0, 2] 1 1 =
        (([0, 2] : List ℝ).map (fun s =>
          if (1 : ℝ) - s ≥ 0 then 1 * econst ^ (-((1 : ℝ) - s) / 1) else 0)).sum ∧
        g_syn 1 [] 1 1 = 0) :=
  ⟨by norm_num, claim_C2_conductance_sum 1 [0, 2] 1 1 (by norm_num)⟩

/-! ### Claim C3 -/

/-- Claim C3: with zero synaptic and external current, `V_rest = -65`,
`C_m = 1`, `R_m = 100`, `dt = 0.5` and initial voltage `V_rest + 2`, after
4060 iterations of the leak-only loop the voltage is within `0.001` mV of
`V_rest`. -/
theorem claim_C3_equilibrium :
    |leakSim (-65) 100 1 0 0.5 (-65 + 2) 4060 - (-65)| ≤ 0.001 := by
  rw [leakSim_closed 4060,
    show (-65 + 2 * ((199 : ℝ) / 200) ^ 4060 - (-65)) = 2 * ((199 : ℝ) / 200) ^ 4060 by
      ring,
    abs_of_nonneg (by positivity),
    show (0.001 : ℝ) = 1 / 1000 by norm_num,
    div_pow, mul_div_assoc', div_le_div_iff₀ (by positivity) (by norm_num)]
  norm_num

/-! ### Claim C6 -/

/-- Claim C6: querying the conductance at exactly the spike instant returns
the peak conductance: `g_syn t_s [t_s] g_max tau = g_max` for every
`g_max`, `tau > 0` and spike time `t_s` (the decay factor is exactly `1`). -/
theorem claim_C6_peak_at_spike (g_max tau t_s : ℝ) (h : 0 < tau) :
    g_syn t_s [t_s] g_max tau = g_max := by
  rw [g_syn_eq_sum]
  simp

theorem claim_C6_witness : (0 : ℝ) < 5 ∧ g_syn 2 [2] 50 5 = 50 :=
  ⟨by norm_num, claim_C6_peak_at_spike 50 5 2 (by norm_num)⟩

/-! ### Claim C7 -/

/-- Claim C7: the conductance is invariant under every permutation of the
spike list, and a duplicated spike time contributes twice the single-spike
value. -/
theorem claim_C7_perm_dup (t g_max tau : ℝ) (h : 0 < tau) :
    (∀ l₁ l₂ : List ℝ, l₁.Perm l₂ → g_syn t l₁ g_max tau = g_syn t l₂ g_max tau) ∧
    (∀ s : ℝ, g_syn t [s, s] g_max tau = 2 * g_syn t [s] g_max tau) := by
  constructor
  · intro l₁ l₂ hp
    rw [g_syn_eq_sum, g_syn_eq_sum]
    exact (hp.map _).sum_eq
  · intro s
    rw [g_syn_eq_sum, g_syn_eq_sum]
    simp only [List.map_cons, List.map_nil, List.sum_cons, List.sum_nil]
    ring

theorem claim_C7_witness :
    (0 : ℝ) < 1 ∧ g_syn 1 [0, 1] 1 1 = g_syn 1 [1, 0] 1 1 ∧
      g_syn 1 [2, 2] 1 1 = 2 * g_syn 1 [2] 1 1 :=
  ⟨by norm_num,
    (claim_C7_perm_dup 1 1 1 (by norm_num)).1 [0, 1] [1, 0] (List.Perm.swap 1 0 []),
    (claim_C7_perm_dup 1 1 1 (by norm_num)).2 2⟩

/-! ### Claim C9 -/

/-- Claim C9 counterexample: at `C_out = -135 ≤ 0`, `C_in = 5`,
`valence = -1`, the claim asserts a `DomainError`, but the source raises
nothing: `np.log` of a negative ratio silently yields a value, so
`nernst_ind` returns a result. -/
theorem claim_C9_counterexample :
    (((-135 : ℝ) ≤ 0) ∨ ((5 : ℝ) ≤ 0) ∨ ((-1 : ℝ) = 0)) ∧
      nernst_ind (-135) 5 (-1) ≠ none := by
  constructor
  · left; norm_num
  · rw [nernst_ind, if_neg (by norm_num)]
    simp

/-- Claim C9 (amended): `nernst_ind` raises — a `ZeroDivisionError`, the
source has no `DomainError` — exactly when `valence = 0` or
`concentration_in = 0`; for every other input, including non-positive
concentrations, it returns a value without error. -/
theorem claim_C9_failure_iff (C_out C_in sign : ℝ) :
    nernst_ind C_out C_in sign = none ↔ sign = 0 ∨ C_in = 0 := by
  rw [nernst_ind]
  split_ifs with h
  · simp [h]
  · simp [h]

/-! ### Claim C10 -/

/-- Claim C10 counterexample: unequal input lengths do not guarantee a
result — with sequences of lengths 2, 1, 1, 1 and the non-monovalent
valence `2` inside the zipped region, `ghk` fails. -/
theorem claim_C10_counterexample :
    ([(1 : ℝ), 1].length ≠ [(1 : ℝ)].length) ∧ ghk [1, 1] [1] [1] [2] = none := by
  constructor
  · simp
  · norm_num [ghk, ghkLoop, zip4]

/-- Claim C10 (amended): `ghk` on sequences of unequal lengths behaves
exactly as on the inputs truncated to the length of the shortest sequence,
silently ignoring all trailing elements of the longer sequences; the
length mismatch itself causes no failure, though the truncated computation
may still fail. -/
theorem claim_C10_truncation (C_outs C_ins ps : List ℝ) (zs : List ℤ) :
    ghk C_outs C_ins ps zs =
      ghk (C_outs.take (min (min C_outs.length C_ins.length) (min ps.length zs.length)))
        (C_ins.take (min (min C_outs.length C_ins.length) (min ps.length zs.length)))
        (ps.take (min (min C_outs.length C_ins.length) (min ps.length zs.length)))
        (zs.take (min (min C_outs.length C_ins.length) (min ps.length zs.length))) := by
  rw [ghk, ghk,
    zip4_take (min (min C_outs.length C_ins.length) (min ps.length zs.length))
      C_ins C_outs ps zs (by omega)]

/-! ### Claim C8 -/

/-- Claim C8 counterexample: a non-monovalent valence beyond the zipped
region does not make `ghk` fail — with `zs = [1, 2]` but the other
sequences of length 1, the valence `2` is never reached and `ghk` returns
a potential. -/
theorem claim_C8_counterexample :
    ((2 : ℤ) ∈ ([1, 2] : List ℤ) ∧ ((2 : ℤ).natAbs ≠ 1)) ∧
      ghk [4] [150] [1] [1, 2] ≠ none := by
  refine ⟨⟨by norm_num, by norm_num⟩, ?_⟩
  norm_num [ghk, ghkLoop, zip4]
  exact Option.some_ne_none _

/-- Claim C8 (amended): whenever some valence among the zipped quadruples
(the element-wise positions up to the shortest input length) has magnitude
different from 1, `ghk` fails on the source's assert (the spec's
`UnsupportedValenceError`) and returns no potential. -/
theorem claim_C8_monovalent_guard (C_outs C_ins ps : List ℝ) (zs : List ℤ)
    (h : ∃ q ∈ zip4 C_ins C_outs ps zs, (q.2.2.2 : ℤ).natAbs ≠ 1) :
    ghk C_outs C_ins ps zs = none := by
  rw [ghk, ghkLoop_none _ h 0 0]
  rfl

theorem claim_C8_witness :
    (∃ q ∈ zip4 [(150 : ℝ)] [(4 : ℝ)] [(1 : ℝ)] [(2 : ℤ)],
        (q.2.2.2 : ℤ).natAbs ≠ 1) ∧
      ghk [4] [150] [1] [2] = none := by
  have hx : ∃ q ∈ zip4 [(150 : ℝ)] [(4 : ℝ)] [(1 : ℝ)] [(2 : ℤ)],
      (q.2.2.2 : ℤ).natAbs ≠ 1 :=
    ⟨(150, 4, 1, 2), by simp [zip4], by norm_num⟩
  exact ⟨hx, claim_C8_monovalent_guard [4] [150] [1] [2] hx⟩

/-! ### Claim C4 -/

lemma ghk_instance_eval :
    ghk [4, 125, 110] [150, 15, 10] [1, 0.05, 0.45] [1, 1, -1] =
      some (RTF * Real.log ((59 : ℝ) / 801) * 1000) := by
  have hloop : ghkLoop (zip4 [(150 : ℝ), 15, 10] [(4 : ℝ), 125, 110]
      [(1 : ℝ), 0.05, 0.45] [(1 : ℤ), 1, -1]) 0 0 = some (14.75, 200.25) := by
    norm_num [ghkLoop, zip4]
  rw [ghk, hloop, Option.some_bind, if_neg (by norm_num : ¬ (200.25 : ℝ) = 0)]
  rw [show ((14.75 : ℝ) / 200.25) = (59 : ℝ) / 801 by norm_num]

lemma ghk_instance_bounds :
    -69.735 < RTF * Real.log ((59 : ℝ) / 801) * 1000 ∧
      RTF * Real.log ((59 : ℝ) / 801) * 1000 < -69.725 := by
  have hinv : Real.log ((59 : ℝ) / 801) = -Real.log ((801 : ℝ) / 59) := by
    rw [show ((59 : ℝ) / 801) = ((801 : ℝ) / 59)⁻¹ by norm_num, Real.log_inv]
  have hK : (0 : ℝ) < RTF * 1000 := by norm_num [RTF, R, F, T]
  have e1 : RTF * 1000 * Real.log ((801 : ℝ) / 59) < RTF * 1000 * 2.6084 :=
    (mul_lt_mul_left hK).mpr log_ratio_lt
  have e2 : RTF * 1000 * (2.6084 : ℝ) < 69.735 := by norm_num [RTF, R, F, T]
  have e3 : (69.725 : ℝ) < RTF * 1000 * 2.6083 := by norm_num [RTF, R, F, T]
  have e4 : RTF * 1000 * 2.6083 < RTF * 1000 * Real.log ((801 : ℝ) / 59) :=
    (mul_lt_mul_left hK).mpr log_ratio_gt
  have hval : RTF * Real.log ((59 : ℝ) / 801) * 1000 =
      -(RTF * 1000 * Real.log ((801 : ℝ) / 59)) := by
    rw [hinv]; ring
  rw [hval]
  constructor
  · linarith
  · linarith

/-- Claim C4 counterexample: equal lengths and monovalent valences do not
suffice for `ghk` to return the GHK potential — with permeability `0` the
accumulated divisor is zero and the source raises `ZeroDivisionError`
instead of returning a value. -/
theorem claim_C4_counterexample :
    ((∀ z ∈ ([(1 : ℤ)] : List ℤ), (z : ℤ).natAbs = 1) ∧
      ([(1 : ℝ)] : List ℝ).length = 1 ∧ ([(0 : ℝ)] : List ℝ).length = 1 ∧
      ([(1 : ℤ)] : List ℤ).length = 1) ∧
      ghk [1] [1] [0] [1] = none := by
  refine ⟨⟨by decide, rfl, rfl, rfl⟩, ?_⟩
  norm_num [ghk, ghkLoop, zip4]

/-- Claim C4 (amended): for equal-length sequences of length at least 1 in
which every valence has magnitude exactly 1 and whose accumulated
denominator is nonzero, `ghk` returns
`RTF * ln(numerator/denominator) * 1000` with positive-valence ions
contributing `p*C_out` to the numerator and `p*C_in` to the denominator
and negative-valence ions the reverse; in particular the reference inputs
give a potential strictly between `-69.735` and `-69.725` mV, which rounds
to `-69.73`. -/
theorem claim_C4_ghk_formula (C_outs C_ins ps : List ℝ) (zs : List ℤ)
    (h₁ : C_ins.length = C_outs.length) (h₂ : ps.length = C_outs.length)
    (h₃ : zs.length = C_outs.length) (hN : 1 ≤ C_outs.length)
    (hz : ∀ z ∈ zs, (z : ℤ).natAbs = 1)
    (hden : ghkDenominator (zip4 C_ins C_outs ps zs) ≠ 0) :
    ghk C_outs C_ins ps zs =
      some (RTF * Real.log (ghkNumerator (zip4 C_ins C_outs ps zs) /
        ghkDenominator (zip4 C_ins C_outs ps zs)) * 1000) ∧
    ∃ v, ghk [4, 125, 110] [150, 15, 10] [1, 0.05, 0.45] [1, 1, -1] = some v ∧
      -69.735 < v ∧ v < -69.725 := by
  constructor
  · have hquad : ∀ q ∈ zip4 C_ins C_outs ps zs, (q.2.2.2 : ℤ).natAbs = 1 :=
      fun q hq => hz _ (zip4_mem _ _ _ _ _ hq)
    rw [ghk, ghkLoop_ok _ hquad 0 0]
    simp only [zero_add, Option.some_bind]
    rw [if_neg hden]
  · exact ⟨_, ghk_instance_eval, ghk_instance_bounds.1, ghk_instance_bounds.2⟩

theorem claim_C4_witness :
    (([(150 : ℝ), 15, 10] : List ℝ).length = 3 ∧
      (∀ z ∈ ([(1 : ℤ), 1, -1] : List ℤ), (z : ℤ).natAbs = 1) ∧
      ghkDenominator (zip4 [(150 : ℝ), 15, 10] [(4 : ℝ), 125, 110]
        [(1 : ℝ), 0.05, 0.45] [(1 : ℤ), 1, -1]) ≠ 0) ∧
    (ghk [4, 125, 110] [150, 15, 10] [1, 0.05, 0.45] [1, 1, -1] =
      some (RTF * Real.log (ghkNumerator (zip4 [(150 : ℝ), 15, 10] [(4 : ℝ), 125, 110]
          [(1 : ℝ), 0.05, 0.45] [(1 : ℤ), 1, -1]) /
        ghkDenominator (zip4 [(150 : ℝ), 15, 10] [(4 : ℝ), 125, 110]
          [(1 : ℝ), 0.05, 0.45] [(1 : ℤ), 1, -1])) * 1000) ∧
      ∃ v, ghk [4, 125, 110] [150, 15, 10] [1, 0.05, 0.45] [1, 1, -1] = some v ∧
        -69.735 < v ∧ v < -69.725) :=
  ⟨⟨rfl, by decide, by norm_num [ghkDenominator, zip4]⟩,
    claim_C4_ghk_formula [4, 125, 110] [150, 15, 10] [1, 0.05, 0.45] [1, 1, -1]
      rfl rfl rfl (by norm_num) (by decide) (by norm_num [ghkDenominator, zip4])⟩

/-! ### Claim C5 -/

lemma nernst_instance_eval :
    nernst_ind 135 5 (-1) = some (RTF / (-1) * Real.log ((135 : ℝ) / 5) * 1000) := by
  rw [nernst_ind, if_neg (by norm_num)]

lemma nernst_instance_bounds :
    |RTF / (-1) * Real.log ((135 : ℝ) / 5) * 1000 - (-88.11)| ≤ 0.01 := by
  rw [show ((135 : ℝ) / 5) = 27 by norm_num]
  have hK : (0 : ℝ) < RTF * 1000 := by norm_num [RTF, R, F, T]
  have e1 : RTF * 1000 * Real.log (27 : ℝ) < RTF * 1000 * 3.2961 :=
    (mul_lt_mul_left hK).mpr log_27_lt
  have e2 : RTF * 1000 * (3.2961 : ℝ) < 88.12 := by norm_num [RTF, R, F, T]
  have e3 : (88.10 : ℝ) < RTF * 1000 * 3.2955 := by norm_num [RTF, R, F, T]
  have e4 : RTF * 1000 * 3.2955 < RTF * 1000 * Real.log (27 : ℝ) :=
    (mul_lt_mul_left hK).mpr log_27_gt
  have hval : RTF / (-1) * Real.log (27 : ℝ) * 1000 =
      -(RTF * 1000 * Real.log (27 : ℝ)) := by ring
  rw [hval, abs_le]
  constructor
  · linarith
  · linarith

/-- Claim C5: for every `concentration_out > 0`, `concentration_in > 0`
and `valence ≠ 0`, `nernst_ind` returns
`(RTF / valence) * ln(C_out / C_in) * 1000` with the natural logarithm and
`RTF = R*T/F` for `R = 8.314`, `F = 96485`, `T = 310.25`; in particular
`nernst_ind 135 5 (-1)` is within `0.01` of `-88.11` mV. -/
theorem claim_C5_nernst (C_out C_in sign : ℝ) (h₁ : 0 < C_out) (h₂ : 0 < C_in)
    (h₃ : sign ≠ 0) :
    nernst_ind C_out C_in sign = some (RTF / sign * Real.log (C_out / C_in) * 1000) ∧
    ∃ v, nernst_ind 135 5 (-1) = some v ∧ |v - (-88.11)| ≤ 0.01 := by
  refine ⟨?_, ⟨_, nernst_instance_eval, nernst_instance_bounds⟩⟩
  rw [nernst_ind, if_neg]
  push_neg
  exact ⟨h₃, ne_of_gt h₂⟩

theorem claim_C5_witness :
    ((0 : ℝ) < 135 ∧ (0 : ℝ) < 5 ∧ ((-1 : ℝ) ≠ 0)) ∧
      (nernst_ind 135 5 (-1) =
        some (RTF / (-1) * Real.log ((135 : ℝ) / 5) * 1000) ∧
        ∃ v, nernst_ind 135 5 (-1) = some v ∧ |v - (-88.11)| ≤ 0.01) :=
  ⟨⟨by norm_num, by norm_num, by norm_num⟩,
    claim_C5_nernst 135 5 (-1) (by norm_num) (by norm_num) (by norm_num)⟩

end SpikeSim
